import Mathlib

/-!
Verification of the lightweight-ldap server against its specification.

The Rust sources are embedded shallowly:
  * `src/infrastructure.rs` — the BER length framer and the connection loop,
    with the byte stream modelled as a `List Nat` and panics/`?`-exits made
    explicit;
  * `src/entity/{dn,entry,schema}.rs` — DNs, RDNs, entries and schema
    elements, with Rust `HashSet`/`HashMap` modelled as lists standing for
    their contents (the hash order being unobservable up to the properties
    proved here);
  * `src/db.rs` — the in-memory entry repository (`u64` IDs, root id `0`);
  * `src/service/schema.rs` and `src/service/entry.rs` — normalisation,
    validation, DN resolution and the add-entry transaction.

Rust functions that can panic are modelled in `Option`, `none` being the
panic; fallible functions return `Except LdapError`.
-/

namespace Ldap

/-- Characters model Rust `char`; Rust `String` is modelled as `List Char`. -/
abbrev Str := List Char

/-- Coerce a Lean string literal into the `Str` model. -/
def str (s : String) : Str := s.toList

/-! ## BER framer (`src/infrastructure.rs`) -/

/-- The byte stream feeding a connection: each element is one `u8`. -/
abbrev Stream := List Nat

/-- `Read::read_exact` into a buffer of size `n`: returns the bytes read and
the remaining stream, or `none` when the stream ends early (a short read). -/
def read_exact : Nat → Stream → Option (List Nat × Stream)
  | 0, s => some ([], s)
  | _ + 1, [] => none
  | n + 1, b :: s => (read_exact n s).map (fun p => (b :: p.1, p.2))

/-- Big-endian accumulation of the long-form length bytes:
`fold(0, |acc, b| (acc << 8) | *b as usize)`.  The fold runs on `usize`,
whose shift silently discards high bits, so every step wraps modulo
`2 ^ 64`. -/
def beFold (l : List Nat) : Nat :=
  l.foldl (fun acc b => ((acc <<< 8) ||| b) % 2 ^ 64) 0

/-- The big-endian UNSIGNED INTEGER value of a byte list, as the
specification reads the long-form length bytes (unbounded, no wrap). -/
def beValue (l : List Nat) : Nat := l.foldl (fun acc b => acc * 256 + b) 0

theorem shiftLeft_or_eq_add (a : Nat) {b : Nat} (h : b < 2 ^ 8) :
    (a <<< 8) ||| b = 2 ^ 8 * a + b := by
  apply Nat.eq_of_testBit_eq
  intro j
  rw [Nat.testBit_lor, Nat.testBit_shiftLeft, Nat.testBit_mul_pow_two_add a h j]
  by_cases hj : j < 8
  · simp [hj, Nat.not_le.mpr hj]
  · have hb : b.testBit j = false :=
      Nat.testBit_lt_two_pow
        (lt_of_lt_of_le h (Nat.pow_le_pow_right (by norm_num) (Nat.not_lt.mp hj)))
    simp [hj, Nat.not_lt.mp hj, hb]

theorem beFold_go_eq (l : List Nat) (hb : ∀ x ∈ l, x < 256) :
    ∀ acc : Nat,
      l.foldl (fun acc b => ((acc <<< 8) ||| b) % 2 ^ 64) (acc % 2 ^ 64) =
        (l.foldl (fun acc b => acc * 256 + b) acc) % 2 ^ 64 := by
  induction l with
  | nil => intro acc; rfl
  | cons b t ih =>
    intro acc
    rw [List.foldl_cons, List.foldl_cons]
    have hstep : (((acc % 2 ^ 64) <<< 8) ||| b) % 2 ^ 64 = (acc * 256 + b) % 2 ^ 64 := by
      rw [shiftLeft_or_eq_add (acc % 2 ^ 64) (hb b (by simp))]
      omega
    rw [hstep]
    exact ih (fun x hx => hb x (List.mem_cons_of_mem b hx)) (acc * 256 + b)

/-- For genuine `u8` bytes the wrapped fold computes the big-endian value
reduced modulo `2 ^ 64`. -/
theorem beFold_eq_beValue_mod (l : List Nat) (hb : ∀ x ∈ l, x < 256) :
    beFold l = beValue l % 2 ^ 64 := by
  have h := beFold_go_eq l hb 0
  simpa [beFold, beValue] using h

/-- Embeds `LdapTcpConnection::read_ber_len`: reads the tag byte and the
first length byte; short form if the top bit is clear, otherwise reads
`low 7 bits` further bytes and folds them big-endian.  Returns
`(length, consumed header bytes, remaining stream)`; `none` is a failed
`read_exact`. -/
def read_ber_len (s : Stream) : Option (Nat × List Nat × Stream) :=
  match read_exact 2 s with
  | none => none
  | some (tag_len_buf, s1) =>
    let len := tag_len_buf.getD 1 0
    if len &&& 128 = 0 then
      some (len, tag_len_buf, s1)
    else
      match read_exact (len &&& 127) s1 with
      | none => none
      | some (long_len_buf, s2) =>
        some (beFold long_len_buf, tag_len_buf ++ long_len_buf, s2)

/-- The framing part of `LdapTcpConnection::read_msg`: reads the header via
`read_ber_len`, then exactly `len` payload bytes; returns the full buffer
handed to the decoder and the untouched remainder of the stream. -/
def read_frame (s : Stream) : Option (List Nat × Stream) :=
  match read_ber_len s with
  | none => none
  | some (len, buf, s1) =>
    match read_exact len s1 with
    | none => none
    | some (rest_buf, s2) => some (buf ++ rest_buf, s2)

theorem read_exact_eq_none {n : Nat} {s : Stream} (h : s.length < n) :
    read_exact n s = none := by
  induction n generalizing s with
  | zero => omega
  | succ n ih =>
    cases s with
    | nil => rfl
    | cons b t =>
      simp only [read_exact]
      rw [ih (by simpa using h)]
      rfl

theorem read_exact_append {a : List Nat} {n : Nat} (b : Stream) (h : a.length = n) :
    read_exact n (a ++ b) = some (a, b) := by
  induction a generalizing n with
  | nil => subst h; rfl
  | cons x t ih =>
    subst h
    simp only [read_exact, List.cons_append, List.length_cons]
    rw [show t.append b = t ++ b from rfl, ih rfl]
    rfl

/-- Claim C7 (amended): `read_msg` framing is exact, with the long-form
length computed in `usize` arithmetic.  Short form: if the top bit of the
first length byte is clear the payload length is that byte's value.  Long
form: the low seven bits give `K`, exactly `K` further length bytes are
read and folded big-endian WITH WRAPPING MODULO `2 ^ 64` into `L` — for
`u8` bytes the fold equals the big-endian unsigned integer value reduced
mod `2 ^ 64`, hence the unbounded value itself whenever `K ≤ 8` — then
exactly `L` payload bytes are read; the buffer handed to the decoder is
precisely the PDU and no byte of the following stream is consumed. -/
theorem c7_read_frame_exact :
    (∀ (tag l0 : Nat) (payload rest : Stream), l0 &&& 128 = 0 →
      payload.length = l0 →
      read_frame (tag :: l0 :: (payload ++ rest)) =
        some (tag :: l0 :: payload, rest)) ∧
    (∀ (tag l0 : Nat) (lb payload rest : Stream), l0 &&& 128 ≠ 0 →
      lb.length = l0 &&& 127 →
      payload.length = beFold lb →
      read_frame (tag :: l0 :: (lb ++ (payload ++ rest))) =
        some ((tag :: l0 :: lb) ++ payload, rest)) ∧
    (∀ lb : Stream, (∀ x ∈ lb, x < 256) → beFold lb = beValue lb % 2 ^ 64) := by
  refine ⟨?_, ?_, beFold_eq_beValue_mod⟩
  · intro tag l0 payload rest hshort hlen
    rw [read_frame, read_ber_len,
      show tag :: l0 :: (payload ++ rest) = [tag, l0] ++ (payload ++ rest) from rfl,
      read_exact_append (payload ++ rest) (show ([tag, l0] : List Nat).length = 2 from rfl)]
    simp only [List.getD, List.get?, Option.getD_some, if_pos hshort]
    rw [read_exact_append _ hlen]
    rfl
  · intro tag l0 lb payload rest hlong hk hlen
    rw [read_frame, read_ber_len,
      show tag :: l0 :: (lb ++ (payload ++ rest)) = [tag, l0] ++ (lb ++ (payload ++ rest)) from rfl,
      read_exact_append (lb ++ (payload ++ rest)) (show ([tag, l0] : List Nat).length = 2 from rfl)]
    simp only [List.getD, List.get?, Option.getD_some, if_neg hlong]
    rw [read_exact_append _ hk]
    dsimp only
    rw [read_exact_append _ hlen]
    simp

/-- Counterexample to C7 as stated: with `K = 9` long-form length bytes
`[1, 0, 0, 0, 0, 0, 0, 0, 0]` — big-endian unsigned value `2 ^ 64` — the
`usize` fold wraps to `L = 0`, so the program reads ZERO payload bytes and
leaves the following bytes `[7, 7]` unread, instead of taking `L` as the
big-endian unsigned integer value of the length bytes. -/
theorem c7_wrap_counterexample :
    read_ber_len (48 :: 137 :: ([1, 0, 0, 0, 0, 0, 0, 0, 0] ++ [7, 7])) =
      some (0, 48 :: 137 :: [1, 0, 0, 0, 0, 0, 0, 0, 0], [7, 7]) ∧
    read_frame (48 :: 137 :: ([1, 0, 0, 0, 0, 0, 0, 0, 0] ++ [7, 7])) =
      some (48 :: 137 :: [1, 0, 0, 0, 0, 0, 0, 0, 0], [7, 7]) ∧
    beValue [1, 0, 0, 0, 0, 0, 0, 0, 0] = 2 ^ 64 ∧
    beFold [1, 0, 0, 0, 0, 0, 0, 0, 0] = 0 := by decide

/-- Closed witness for C7 (amended): a long-form frame with `K = 4` length
bytes `[0, 1, 0, 64]` (so `L = 65600 > 65535`, no wrap) is consumed
exactly, leaving the next byte of the stream untouched; the wrapped fold
agrees with the big-endian value there. -/
theorem c7_read_frame_exact_witness :
    (132 : Nat) &&& 128 ≠ 0 ∧
    ([0, 1, 0, 64] : Stream).length = 132 &&& 127 ∧
    (List.replicate 65600 0 : Stream).length = beFold [0, 1, 0, 64] ∧
    read_frame (48 :: 132 :: ([0, 1, 0, 64] ++ (List.replicate 65600 0 ++ [9]))) =
      some ((48 :: 132 :: [0, 1, 0, 64]) ++ List.replicate 65600 0, [9]) ∧
    beFold [0, 1, 0, 64] = beValue [0, 1, 0, 64] % 2 ^ 64 :=
  ⟨by decide, by decide, by rw [List.length_replicate]; rfl,
    c7_read_frame_exact.2.1 48 132 [0, 1, 0, 64] (List.replicate 65600 0) [9]
      (by decide) (by decide) (by rw [List.length_replicate]; rfl),
    c7_read_frame_exact.2.2 [0, 1, 0, 64] (by decide)⟩

/-- Claim C10: a first length byte of exactly `0x80` (the BER
indefinite-length marker) is not rejected: `len & 0x7F = 0` further length
bytes are read, the big-endian fold of the empty list gives length `0`, and
`read_msg` hands the decoder only the two header bytes. -/
theorem c10_indefinite_length_marker (tag : Nat) (rest : Stream) :
    read_ber_len (tag :: 128 :: rest) = some (0, [tag, 128], rest) ∧
    read_frame (tag :: 128 :: rest) = some ([tag, 128], rest) := by
  have hlen : read_ber_len (tag :: 128 :: rest) = some (0, [tag, 128], rest) := by
    rw [read_ber_len, show tag :: 128 :: rest = [tag, 128] ++ rest from rfl,
      read_exact_append rest (show ([tag, 128] : List Nat).length = 2 from rfl)]
    simp [read_exact, beFold]
  refine ⟨hlen, ?_⟩
  rw [read_frame, hlen]
  simp [read_exact]

/-! ## Schema entities (`src/entity/schema.rs`)

Rust `HashSet`s of names/OIDs are modelled as lists of their elements;
only membership is ever observed on them. -/

/-- `Oid` is a newtype over `String`; equality is string equality, so the
model uses the string itself. -/
abbrev Oid := Str

/-- Object-class kinds; `Default` is `Auxiliary`. -/
inductive Kind
  | abstract
  | structural
  | auxiliary
deriving DecidableEq

/-- Embeds `entity::schema::ObjectClass`. -/
structure ObjectClass where
  numericoid : Oid := []
  names : List Str := []
  desc : Str := []
  obsolete : Bool := false
  sup_oids : List Oid := []
  kind : Kind := .auxiliary
  must_attrs : List Oid := []
  may_attrs : List Oid := []
deriving DecidableEq

/-- `ObjectClass::has_name`: membership in the alternate-name set. -/
def ObjectClass.has_name (o : ObjectClass) (name : Str) : Bool :=
  o.names.contains name

/-- `ObjectClass::is_structural`. -/
def ObjectClass.is_structural (o : ObjectClass) : Bool :=
  match o.kind with
  | .structural => true
  | _ => false

/-- Matching-rule and usage tags are unit-like enums in the source. -/
inductive EqualityRule
  | noRule
deriving DecidableEq

/-- Ordering matching-rule tag. -/
inductive OrderingRule
  | noRule
deriving DecidableEq

/-- Substring matching-rule tag. -/
inductive SubstringRule
  | noRule
deriving DecidableEq

/-- Attribute usage tag; `Default` is `UserApplications`. -/
inductive Usage
  | userApplications
  | directoryOperations
  | distributedOperation
  | dsaOperation
deriving DecidableEq

/-- Embeds `entity::schema::Attribute` (the `syntax` field is called
`syntax_tag` here because `syntax` is a keyword). -/
structure Attribute where
  numericoid : Oid := []
  names : List Str := []
  desc : Str := []
  obsolete : Bool := false
  sup_oids : List Oid := []
  equality_rule : EqualityRule := .noRule
  ordering_rule : OrderingRule := .noRule
  substr_rule : SubstringRule := .noRule
  syntax_tag : Str := []
  single_value : Bool := false
  collective : Bool := false
  no_user_modification : Bool := false
  usage : Usage := .userApplications
  extensions : Str := []
deriving DecidableEq

/-- `Attribute::has_name`: membership in the alternate-name set. -/
def Attribute.has_name (a : Attribute) (name : Str) : Bool :=
  a.names.contains name

/-- `Attribute::is_single`. -/
def Attribute.is_single (a : Attribute) : Bool := a.single_value

/-! ## DN and RDN (`src/entity/dn.rs`) -/

/-- Embeds `Rdn(Vec<(Oid, String)>)`: an ordered list of attribute/value
pairs combined with `+`. -/
structure Rdn where
  pairs : List (Oid × Str)
deriving DecidableEq

/-- Embeds `DN { rdns: Vec<Rdn> }`: most-specific RDN first. -/
structure DN where
  rdns : List Rdn
deriving DecidableEq

/-- `DN::parent_dn`: drop the first (most-specific) RDN. -/
def DN.parent_dn (d : DN) : DN := ⟨d.rdns.drop 1⟩

/-- `DN::first`: the most-specific RDN, if any. -/
def DN.first (d : DN) : Option Rdn := d.rdns.head?

/-- `DN::append`: push an RDN at the end (least-specific side). -/
def DN.append (d : DN) (r : Rdn) : DN := ⟨d.rdns ++ [r]⟩

/-- `DN::as_slice`. -/
def DN.as_slice (d : DN) : List Rdn := d.rdns

/-- `Display for Rdn`: fold every pair into `oid=val+` and pop the trailing
`+`. -/
def Rdn.render (r : Rdn) : Str :=
  (r.pairs.foldl (fun acc p => acc ++ p.1 ++ '=' :: p.2 ++ ['+']) []).dropLast

/-- `Display for DN`: fold every rendered RDN followed by `,` and pop the
trailing comma. -/
def DN.render (d : DN) : Str :=
  (d.rdns.foldl (fun acc r => acc ++ r.render ++ [',']) []).dropLast

/-! ## Rust string splitting

`str::split(c)` and `str::split_once(c)` over the `List Char` model.
`split` always yields at least one (possibly empty) segment. -/

/-- `str::split(sep)`: split at every occurrence of `sep`; the empty string
yields `[[]]`. -/
def splitChar (sep : Char) : Str → List Str
  | [] => [[]]
  | c :: rest =>
    if c = sep then [] :: splitChar sep rest
    else
      match splitChar sep rest with
      | [] => [[c]]
      | seg :: segs => (c :: seg) :: segs

/-- `str::split_once(sep)`: split at the first occurrence of `sep`, or
`none` when `sep` does not occur. -/
def splitOnce (sep : Char) : Str → Option (Str × Str)
  | [] => none
  | c :: rest =>
    if c = sep then some ([], rest)
    else (splitOnce sep rest).map (fun p => (c :: p.1, p.2))

/-- Join segments with a separator character (the shape produced by the
fold-then-pop renderers when every segment list is nonempty). -/
def joinChar (sep : Char) : List Str → Str
  | [] => []
  | [s] => s
  | s :: rest => s ++ sep :: joinChar sep rest

theorem splitChar_ne_nil (sep : Char) (s : Str) : splitChar sep s ≠ [] := by
  induction s with
  | nil => simp [splitChar]
  | cons c rest ih =>
    by_cases h : c = sep
    · simp [splitChar, h]
    · simp only [splitChar, if_neg h]
      cases hs : splitChar sep rest with
      | nil => simp
      | cons seg segs => simp

theorem splitChar_not_mem (sep : Char) (s : Str) (h : sep ∉ s) :
    splitChar sep s = [s] := by
  induction s with
  | nil => rfl
  | cons c rest ih =>
    simp only [List.mem_cons, not_or] at h
    have hcs : ¬(c = sep) := fun hc => h.1 hc.symm
    simp only [splitChar, if_neg hcs]
    rw [ih h.2]

theorem splitChar_append (sep : Char) (p t : Str) (h : sep ∉ p) :
    splitChar sep (p ++ sep :: t) = p :: splitChar sep t := by
  induction p with
  | nil => simp [splitChar]
  | cons c rest ih =>
    simp only [List.mem_cons, not_or] at h
    have hcs : ¬(c = sep) := fun hc => h.1 hc.symm
    simp only [List.cons_append, splitChar, List.append_eq, if_neg hcs]
    rw [ih h.2]

theorem splitChar_joinChar (sep : Char) (parts : List Str) (hne : parts ≠ [])
    (h : ∀ p ∈ parts, sep ∉ p) :
    splitChar sep (joinChar sep parts) = parts := by
  induction parts with
  | nil => exact absurd rfl hne
  | cons p rest ih =>
    cases rest with
    | nil => exact splitChar_not_mem sep p (h p (by simp))
    | cons q qs =>
      have hj : joinChar sep (p :: q :: qs) = p ++ sep :: joinChar sep (q :: qs) := rfl
      rw [hj, splitChar_append sep p _ (h p (by simp))]
      rw [ih (List.cons_ne_nil q qs) (fun x hx => h x (List.mem_cons_of_mem p hx))]

theorem splitOnce_append (sep : Char) (a b : Str) (h : sep ∉ a) :
    splitOnce sep (a ++ sep :: b) = some (a, b) := by
  induction a with
  | nil => simp [splitOnce]
  | cons c rest ih =>
    simp only [List.mem_cons, not_or] at h
    have hcs : ¬(c = sep) := fun hc => h.1 hc.symm
    simp only [List.cons_append, splitOnce, List.append_eq, if_neg hcs]
    rw [ih h.2]
    rfl


/-- Rust `collect::<Option<Vec<_>>>`: all-or-nothing collection. -/
def collectOption {α β : Type} (f : α → Option β) : List α → Option (List β)
  | [] => some []
  | x :: t =>
    match f x with
    | none => none
    | some b =>
      match collectOption f t with
      | none => none
      | some bs => some (b :: bs)

/-- Rust `collect::<Result<Vec<_>, E>>`: stops at the first error. -/
def collectExcept {α β ε : Type} (f : α → Except ε β) :
    List α → Except ε (List β)
  | [] => .ok []
  | x :: t =>
    match f x with
    | .error e => .error e
    | .ok b =>
      match collectExcept f t with
      | .error e => .error e
      | .ok bs => .ok (b :: bs)

/-! ## Entries (`src/entity/entry.rs`), with the `u64` `EntryId` instance of
`src/db.rs` (`ROOT_ID_U64 = 0`) -/

/-- Entry identifiers: the `u64` instance. -/
abbrev ID := Nat

/-- `EntryId::root_identifier` for `u64`. -/
def root_identifier : ID := 0

/-- Association-list model of a Rust `HashMap`: lookup. -/
def mapGet {κ ν : Type} [DecidableEq κ] (m : List (κ × ν)) (k : κ) : Option ν :=
  (m.find? (fun p => decide (p.1 = k))).map (·.2)

/-- Association-list model of `HashMap::insert` (the prior value, if any, is
returned by `mapGet` before the insert). -/
def mapInsert {κ ν : Type} [DecidableEq κ] (m : List (κ × ν)) (k : κ) (v : ν) :
    List (κ × ν) :=
  if (m.find? (fun p => decide (p.1 = k))).isSome then
    m.map (fun p => if p.1 = k then (k, v) else p)
  else m ++ [(k, v)]

/-- Association-list model of `HashMap::remove` (value discarded). -/
def mapRemove {κ ν : Type} [DecidableEq κ] (m : List (κ × ν)) (k : κ) :
    List (κ × ν) :=
  m.filter (fun p => !(decide (p.1 = k)))

/-- List model of `HashSet::insert`. -/
def setInsert {α : Type} [DecidableEq α] (s : List α) (x : α) : List α :=
  if x ∈ s then s else s ++ [x]

/-- Embeds `entity::entry::Entry<u64>`. -/
structure Entry where
  _id : Option ID := none
  parent : ID := 0
  children : List ID := []
  object_classes : List Oid := []
  attributes : List (Oid × List Str) := []
deriving DecidableEq

/-- Decimal rendering of an id, for error messages. -/
def natStr (n : Nat) : Str := (toString n).toList

/-- `Entry::get_id`. -/
def Entry.get_id (e : Entry) : Option ID := e._id

/-- `Entry::get_id_str`. -/
def Entry.get_id_str (e : Entry) : Str :=
  match e._id with
  | some id => natStr id
  | none => str "No ID"

/-- `Entry::get_attribute`. -/
def Entry.get_attribute (e : Entry) (oid : Oid) : Option (List Str) :=
  mapGet e.attributes oid

/-- `Entry::matches_rdn`: true iff SOME `(oid, val)` pair of the (multi-)RDN
is present on the entry — the source's OR semantics. -/
def Entry.matches_rdn (e : Entry) (rdn : Rdn) : Bool :=
  rdn.pairs.any (fun p =>
    match e.get_attribute p.1 with
    | none => false
    | some attr => attr.contains p.2)

/-- `EntryBuilder::add_object_class`. -/
def Entry.add_object_class (e : Entry) (oid : Oid) : Entry :=
  { e with object_classes := setInsert e.object_classes oid }

/-- `EntryBuilder::add_attr_val`: `attributes.entry(oid).or_default().insert(v)`. -/
def Entry.add_attr_val (e : Entry) (oid : Oid) (v : Str) : Entry :=
  let cur := (mapGet e.attributes oid).getD []
  { e with attributes := mapInsert e.attributes oid (setInsert cur v) }

/-- `EntryBuilder::add_attr_vals`: `or_default().extend(vals)`. -/
def Entry.add_attr_vals (e : Entry) (oid : Oid) (vs : List Str) : Entry :=
  let cur := (mapGet e.attributes oid).getD []
  { e with attributes := mapInsert e.attributes oid (vs.foldl setInsert cur) }

/-- `EntryBuilder::add_child`. -/
def Entry.add_child (e : Entry) (c : ID) : Entry :=
  { e with children := setInsert e.children c }

/-- `EntryBuilder::set_parent`. -/
def Entry.set_parent (e : Entry) (p : ID) : Entry := { e with parent := p }

/-! ## Entry repository (`src/db.rs`, `InMemLdapDb` behind `Arc<Mutex<_>>`)

Each trait method takes the mutex once; a repository value is the map of
entries.  `save` needs a source of randomness for `ID::new_random_id`; the
model passes the generated id in as `fresh`. -/

/-- The entry map guarded by the mutex. -/
abbrev State := List (ID × Entry)

/-- Embeds `EntryRepository::save` for `Arc<Mutex<InMemLdapDb>>`: stamp a
fresh id when absent, insert (returning the PRIOR entry under that id, if
any, per `HashMap::insert`), and `Ok(res.unwrap_or(entry))`. -/
def save (fresh : ID) (db : State) (entry : Entry) : Entry × State :=
  let id := entry._id.getD fresh
  let entry1 := { entry with _id := some id }
  let res := mapGet db id
  (res.getD entry1, mapInsert db id entry1)

/-- Embeds `EntryRepository::get_by_id`. -/
def get_by_id (db : State) (id : ID) : Option Entry := mapGet db id

/-- Embeds `EntryRepository::get_root_entry`:
`entries.entry(root_identifier()).or_default().clone()` — inserts a
`Default::default()` entry when the key is vacant and returns the stored
entry. -/
def get_root_entry (db : State) : Entry × State :=
  match mapGet db root_identifier with
  | some e => (e, db)
  | none => ({}, mapInsert db root_identifier {})

/-! ## Schema repository (`src/db.rs`, `InMemSchemaDb`) -/

/-- The two schema maps, keyed by numericoid; modelled as value lists. -/
structure InMemSchemaDb where
  object_classes : List ObjectClass := []
  attributes : List Attribute := []

/-- `SchemaRepo::get_object_class` (map lookup by numericoid). -/
def InMemSchemaDb.get_object_class (db : InMemSchemaDb) (oid : Oid) :
    Option ObjectClass :=
  db.object_classes.find? (fun o => decide (o.numericoid = oid))

/-- `SchemaRepo::get_attribute` (map lookup by numericoid). -/
def InMemSchemaDb.get_attribute (db : InMemSchemaDb) (oid : Oid) :
    Option Attribute :=
  db.attributes.find? (fun a => decide (a.numericoid = oid))

/-- `SchemaRepo::find_object_class_by_name`: linear scan over the name sets. -/
def InMemSchemaDb.find_object_class_by_name (db : InMemSchemaDb) (name : Str) :
    Option ObjectClass :=
  db.object_classes.find? (fun o => o.has_name name)

/-- `SchemaRepo::find_attribute_by_name`: linear scan over the name sets. -/
def InMemSchemaDb.find_attribute_by_name (db : InMemSchemaDb) (name : Str) :
    Option Attribute :=
  db.attributes.find? (fun a => a.has_name name)

/-- `SchemaRepo::get_entry_object_classes`: resolve every declared OID or
fail with `None`. -/
def InMemSchemaDb.get_entry_object_classes (db : InMemSchemaDb) (e : Entry) :
    Option (List ObjectClass) :=
  collectOption db.get_object_class e.object_classes

/-! ## Errors (`src/errors.rs`) -/

/-- Embeds `LdapError` (the `name` of `InvalidAddRequest` is a byte string). -/
inductive LdapError
  | invalidAddRequest (name : List Nat) (msg : Str)
  | unknownError (msg : Str)
  | invalidDN (dn : Str) (msg : Str)
  | entryAlreadyExists (dn : Str)
  | entryDoesNotExists (dn : Str)
  | invalidEntry (id : Str) (msg : Str)
  | invalidSchema (msg : Str)
  | unknownAttribute (name : Str)
  | unknownObjectClass (name : Str)
deriving DecidableEq

/-! ## Schema service (`src/service/schema.rs`) -/

/-- Embeds `SchemaServiceImpl::create_normalised_rdn`: split the segment on
`+`, split each pair at the first `=`, resolve the attribute NAME via the
schema and replace it by the canonical numericoid. -/
def create_normalised_rdn (db : InMemSchemaDb) (rdn_str : Str) :
    Except Str Rdn :=
  match collectExcept (fun att_val =>
    match splitOnce '=' att_val with
    | none => Except.error rdn_str
    | some (att, val) =>
      match db.find_attribute_by_name att with
      | none =>
        Except.error (str "Could not find attribute " ++ att ++ str " for " ++ rdn_str)
      | some a => Except.ok (a.numericoid, val)) (splitChar '+' rdn_str) with
  | .error e => .error e
  | .ok pairs => .ok ⟨pairs⟩

/-- Embeds `SchemaServiceImpl::create_normalised_dn`: split on `,`,
normalise each RDN, collect, wrapping failures into `InvalidDN`. -/
def create_normalised_dn (db : InMemSchemaDb) (dn_str : Str) :
    Except LdapError DN :=
  match collectExcept (create_normalised_rdn db) (splitChar ',' dn_str) with
  | .error msg => .error (.invalidDN dn_str msg)
  | .ok rdns => .ok ⟨rdns⟩

/-- Embeds `SchemaServiceImpl::count_stuctural_obj_classes` (sic). -/
def count_stuctural_obj_classes (entry : Entry)
    (e_obj_classes : List ObjectClass) : Except LdapError Unit :=
  let structural_count := (e_obj_classes.filter (fun o => o.is_structural)).length
  if structural_count ≠ 1 then
    .error (.invalidEntry entry.get_id_str
      (str "Expected 1 structural obj class, got " ++ natStr structural_count))
  else .ok ()

/-- Embeds `SchemaServiceImpl::validate_entry_attribute`.  NOTE: the caller
passes `is_must = true` on BOTH the must-pass and the may-pass. -/
def validate_entry_attribute (entry : Entry) (attrDef : Attribute)
    (is_must : Bool) (values : List Str) : Except LdapError Unit :=
  let val_count := values.length
  if is_must ∧ val_count = 0 then
    .error (.invalidEntry entry.get_id_str
      (str "Entry missing attributes for must attr " ++ attrDef.numericoid))
  else if attrDef.is_single ∧ val_count > 1 then
    .error (.invalidEntry entry.get_id_str
      (str "Entry has too many values for single attr " ++ attrDef.numericoid
        ++ str ": " ++ natStr val_count))
  else .ok ()

/-- The `for must in must_attrs` loop of
`SchemaServiceImpl::validate_entry_attributes`: check presence, validate
with `is_must = true`, and remove the attr from the iteration copy;
returns the remaining entry attributes. -/
def validate_must (db : InMemSchemaDb) (entry : Entry) :
    List Oid → List (Oid × List Str) → Except LdapError (List (Oid × List Str))
  | [], e_attrs => .ok e_attrs
  | must :: rest, e_attrs =>
    match mapGet e_attrs must with
    | none =>
      .error (.invalidEntry entry.get_id_str
        (str "Entry contains is missing a must attr: " ++ must))
    | some values =>
      match db.get_attribute must with
      | none => .error (.invalidSchema must)
      | some attrDef =>
        match validate_entry_attribute entry attrDef true values with
        | .error e => .error e
        | .ok _ => validate_must db entry rest (mapRemove e_attrs must)

/-- The `for (attr, values) in e_attrs` loop of
`SchemaServiceImpl::validate_entry_attributes` over the attributes left
after the must-pass: require membership in the MAY union and validate —
with `is_must = true`, as in the source. -/
def validate_may (db : InMemSchemaDb) (entry : Entry) (may_attrs : List Oid) :
    List (Oid × List Str) → Except LdapError Unit
  | [] => .ok ()
  | (attr, values) :: rest =>
    if attr ∉ may_attrs then
      .error (.invalidEntry entry.get_id_str
        (str "Entry contains an attr not in the schema: " ++ attr))
    else
      match db.get_attribute attr with
      | none => .error (.invalidSchema attr)
      | some attrDef =>
        match validate_entry_attribute entry attrDef true values with
        | .error e => .error e
        | .ok _ => validate_may db entry may_attrs rest

/-- Embeds `SchemaServiceImpl::validate_entry_attributes`: the MUST union
pass (removing each checked attr), then the MAY union pass over the rest. -/
def validate_entry_attributes (db : InMemSchemaDb) (entry : Entry)
    (obj_classes : List ObjectClass) : Except LdapError Unit :=
  let must_attrs := (obj_classes.flatMap (fun oc => oc.must_attrs)).dedup
  match validate_must db entry must_attrs entry.attributes with
  | .error e => .error e
  | .ok remaining =>
    let may_attrs := (obj_classes.flatMap (fun oc => oc.may_attrs)).dedup
    validate_may db entry may_attrs remaining

/-- Embeds `SchemaService::validate_entry` for `SchemaServiceImpl`. -/
def validate_entry (db : InMemSchemaDb) (entry : Entry) :
    Except LdapError Unit :=
  match db.get_entry_object_classes entry with
  | none =>
    .error (.invalidEntry entry.get_id_str
      (str "Could not get all object classes for entry"))
  | some object_classes =>
    match count_stuctural_obj_classes entry object_classes with
    | .error e => .error e
    | .ok _ => validate_entry_attributes db entry object_classes

/-- Embeds `SchemaServiceImpl::get_normalised_obj_classes`: read the
`objectClass` user key, resolve every value by object-class name, and
collect the numericoids into a set. -/
def get_normalised_obj_classes (db : InMemSchemaDb)
    (attributes : List (Str × List Str)) : Except LdapError (List Oid) :=
  match mapGet attributes (str "objectClass") with
  | none => .error (.unknownObjectClass (str "No object classes specified"))
  | some vals =>
    match collectExcept (fun name =>
      match db.find_object_class_by_name name with
      | none => Except.error (LdapError.unknownObjectClass name)
      | some oc => Except.ok oc) vals with
    | .error e => .error e
    | .ok ocs => .ok ((ocs.map (fun oc => oc.numericoid)).dedup)

/-- Embeds `SchemaServiceImpl::get_normalised_attributes`: every user key
other than `objectClass` is resolved by attribute name to its numericoid;
value sets are kept as-is. -/
def get_normalised_attributes (db : InMemSchemaDb)
    (attributes : List (Str × List Str)) :
    Except LdapError (List (Oid × List Str)) :=
  attributes.foldlM (fun attrs p =>
    if p.1 = str "objectClass" then pure attrs
    else
      match db.find_attribute_by_name p.1 with
      | none => Except.error (.unknownAttribute p.1)
      | some attr => pure (mapInsert attrs attr.numericoid p.2)) []


/-! ## Map-model lemmas -/

theorem find?_map_update {κ ν : Type} [DecidableEq κ] (m : List (κ × ν))
    (k : κ) (v : ν) (h : (m.find? (fun p => decide (p.1 = k))).isSome) :
    (m.map (fun p => if p.1 = k then (k, v) else p)).find?
      (fun p => decide (p.1 = k)) = some (k, v) := by
  induction m with
  | nil => simp at h
  | cons p t ih =>
    by_cases hp : p.1 = k
    · simp [List.find?, hp]
    · rw [List.map_cons, if_neg hp, List.find?_cons_of_neg _ (by simpa using hp)]
      rw [List.find?_cons_of_neg _ (by simpa using hp)] at h
      exact ih h

theorem find?_map_update_ne {κ ν : Type} [DecidableEq κ] (m : List (κ × ν))
    (k q : κ) (v : ν) (hq : q ≠ k) :
    (m.map (fun p => if p.1 = k then (k, v) else p)).find?
      (fun p => decide (p.1 = q)) = m.find? (fun p => decide (p.1 = q)) := by
  induction m with
  | nil => rfl
  | cons p t ih =>
    by_cases hp : p.1 = k
    · rw [List.map_cons, if_pos hp,
        List.find?_cons_of_neg _ (by simpa using fun hh : k = q => hq hh.symm),
        List.find?_cons_of_neg _
          (by simpa using fun hh : p.1 = q => hq (hp ▸ hh : k = q).symm)]
      · exact ih
    · rw [List.map_cons, if_neg hp]
      by_cases hpq : p.1 = q
      · rw [List.find?_cons_of_pos _ (by simpa using hpq),
          List.find?_cons_of_pos _ (by simpa using hpq)]
      · rw [List.find?_cons_of_neg _ (by simpa using hpq),
          List.find?_cons_of_neg _ (by simpa using hpq)]
        exact ih

theorem mapGet_mapInsert_self {κ ν : Type} [DecidableEq κ] (m : List (κ × ν))
    (k : κ) (v : ν) : mapGet (mapInsert m k v) k = some v := by
  unfold mapGet mapInsert
  by_cases h : (m.find? (fun p => decide (p.1 = k))).isSome
  · rw [if_pos h, find?_map_update m k v h]
    rfl
  · rw [if_neg h, List.find?_append]
    rw [Option.not_isSome_iff_eq_none] at h
    simp [h, List.find?]

theorem mapGet_mapInsert_ne {κ ν : Type} [DecidableEq κ] (m : List (κ × ν))
    (k q : κ) (v : ν) (hq : q ≠ k) :
    mapGet (mapInsert m k v) q = mapGet m q := by
  unfold mapGet mapInsert
  by_cases h : (m.find? (fun p => decide (p.1 = k))).isSome
  · rw [if_pos h, find?_map_update_ne m k q v hq]
  · rw [if_neg h, List.find?_append]
    have hk : decide (k = q) = false := decide_eq_false (fun hh => hq hh.symm)
    cases hface : m.find? (fun p => decide (p.1 = q)) with
    | some p => simp [hface]
    | none => simp [hface, List.find?, hk]

/-! ## Claim C2 — the root entry returned by `get_root_entry` -/

/-- Counterexample to C2 as stated: on the very first access over an empty
repository, the lazily created root is `Entry::default()`, whose optional id
is `None`, not `Some(root_identifier())`. -/
theorem c2_counterexample :
    (get_root_entry ([] : State)).1.get_id ≠ some root_identifier := by decide

/-- Claim C2 (amended): after `get_root_entry` an entry is stored under
`ID::root_identifier()` (a default one is created if absent) and the
returned entry is exactly that stored entry; but the lazily created default
root carries NO id (`get_id = none`), so the returned entry's id equals
`root_identifier()` only if an entry with its id already set was stored
under that key beforehand. -/
theorem c2_get_root_entry_amended :
    (∀ db : State,
      mapGet (get_root_entry db).2 root_identifier = some (get_root_entry db).1) ∧
    (get_root_entry ([] : State)).1._id = none := by
  refine ⟨fun db => ?_, by decide⟩
  unfold get_root_entry
  cases h : mapGet db root_identifier with
  | some e => simpa using h
  | none => simpa using mapGet_mapInsert_self db root_identifier {}

/-! ## Claim C3 — `save` and the stored-vs-returned entry -/

/-- An entry already stored under id 1. -/
def entryA : Entry := { _id := some 1 }

/-- A different entry carrying the same id 1. -/
def entryB : Entry := { _id := some 1, attributes := [(['c'], [['v']])] }

/-- Counterexample to C3 as stated: saving `entryB` over the existing
`entryA` stores `entryB`, but `save` RETURNS the prior `entryA`
(`HashMap::insert` yields the old value and `save` propagates it), so the
returned entry differs from the entry now present under id 1. -/
theorem c3_counterexample :
    mapGet (save 5 [(1, entryA)] entryB).2 1 ≠
      some (save 5 [(1, entryA)] entryB).1 := by decide

/-- Claim C3 (amended): `save` stamps a fresh id when the entry has none and
inserts/replaces under that id; afterwards the repository holds the newly
stamped entry.  The RETURNED entry, however, is the PRIOR entry stored
under that id when one existed, and the newly stored entry only otherwise. -/
theorem c3_save_amended (fresh : ID) (db : State) (e : Entry) :
    mapGet (save fresh db e).2 (e._id.getD fresh) =
      some { e with _id := some (e._id.getD fresh) } ∧
    (save fresh db e).1 =
      (mapGet db (e._id.getD fresh)).getD { e with _id := some (e._id.getD fresh) } := by
  exact ⟨mapGet_mapInsert_self db _ _, rfl⟩


/-- Structural decidable equality for `Except` results. -/
instance exceptDecEq {ε α : Type} [DecidableEq ε] [DecidableEq α] :
    DecidableEq (Except ε α)
  | .error a, .error b =>
    if h : a = b then .isTrue (by rw [h])
    else .isFalse (by intro hh; cases hh; exact h rfl)
  | .error _, .ok _ => .isFalse (by intro hh; cases hh)
  | .ok _, .error _ => .isFalse (by intro hh; cases hh)
  | .ok a, .ok b =>
    if h : a = b then .isTrue (by rw [h])
    else .isFalse (by intro hh; cases hh; exact h rfl)

/-! ## Claim C4 — per-attribute validation on the MAY pass -/

/-- Seed object class for the C4 scenario: `person` is structural with
`MUST = {cn-oid}` and `MAY = {sn-oid}`. -/
def personOC : ObjectClass :=
  { numericoid := str "person-oid", names := [str "person"], kind := .structural,
    must_attrs := [str "cn-oid"], may_attrs := [str "sn-oid"] }

/-- `cn` attribute definition (multi-valued). -/
def cnAttr : Attribute := { numericoid := str "cn-oid", names := [str "cn"] }

/-- `sn` attribute definition (multi-valued, so `single-valued` rejection
cannot fire on it). -/
def snAttr : Attribute := { numericoid := str "sn-oid", names := [str "sn"] }

/-- Schema repository for the C4 scenario. -/
def dbC4 : InMemSchemaDb := { object_classes := [personOC], attributes := [cnAttr, snAttr] }

/-- An entry that passes object-class resolution, the structural count and
the MUST pass, and whose remaining attribute `sn-oid ∈ MAY` has an EMPTY
value set on a multi-valued attribute. -/
def entryC4 : Entry :=
  { object_classes := [str "person-oid"],
    attributes := [(str "cn-oid", [str "x"]), (str "sn-oid", [])] }

/-- Counterexample to C4 as stated: the claim accepts a MAY attribute with
an empty value set, but `validate_entry` REJECTS it — the may-pass calls
`validate_entry_attribute` with `is_must = true`, so the empty value set
trips the missing-must-values error. -/
theorem c4_counterexample :
    validate_entry dbC4 entryC4 =
      .error (.invalidEntry (str "No ID")
        (str "Entry missing attributes for must attr sn-oid")) := by decide

/-- Claim C4 (amended): on the remaining (non-MUST) attributes the may-pass
of `validate_entry_attributes` succeeds iff every remaining `(oid, values)`
is in the MAY union, resolves in the schema, has a NON-EMPTY value set (the
pass reuses the MUST validation with `is_must = true`), and respects
`single-valued ⇒ |values| ≤ 1`. -/
theorem c4_may_pass_iff (db : InMemSchemaDb) (entry : Entry)
    (may_attrs : List Oid) (rem : List (Oid × List Str)) :
    validate_may db entry may_attrs rem = .ok () ↔
      ∀ p ∈ rem, p.1 ∈ may_attrs ∧
        ∃ a, db.get_attribute p.1 = some a ∧ p.2 ≠ [] ∧
          (a.is_single → p.2.length ≤ 1) := by
  induction rem with
  | nil => simp [validate_may]
  | cons p rest ih =>
    obtain ⟨attr, values⟩ := p
    rw [validate_may]
    by_cases hmem : attr ∈ may_attrs
    · rw [if_neg (by simpa using hmem)]
      cases hget : db.get_attribute attr with
      | none => simp [hget, hmem]
      | some a =>
        simp only [validate_entry_attribute]
        by_cases hempty : values.length = 0
        · rw [if_pos (by exact ⟨trivial, hempty⟩)]
          simp [hget, hmem, List.length_eq_zero.mp hempty]
        · rw [if_neg (by simp [hempty])]
          by_cases hsingle : a.is_single = true ∧ values.length > 1
          · rw [if_pos hsingle]
            obtain ⟨hs1, hs2⟩ := hsingle
            simp only [List.mem_cons, forall_eq_or_imp]
            constructor
            · intro hcontr; cases hcontr
            · rintro ⟨⟨-, b, hb, -, hle⟩, -⟩
              rw [hget] at hb
              cases hb
              exact absurd (hle hs1) (by omega)
          · rw [if_neg hsingle]
            rw [ih]
            simp only [List.mem_cons, forall_eq_or_imp]
            constructor
            · intro hrest
              refine ⟨⟨hmem, a, hget, fun hv => hempty (by simp [hv]), ?_⟩, hrest⟩
              intro hs
              rcases Nat.lt_or_ge 1 values.length with hgt | hge
              · exact absurd ⟨hs, hgt⟩ hsingle
              · exact hge
            · exact fun h => h.2
    · rw [if_pos (by simpa using hmem)]
      simp only [List.mem_cons, forall_eq_or_imp]
      exact ⟨fun hcontr => absurd hcontr (by simp), fun h => absurd h.1.1 hmem⟩

/-- Witness for C4 (amended): a nonempty, in-schema, in-MAY remaining
attribute passes the may-pass. -/
theorem c4_may_pass_iff_witness :
    validate_may dbC4 entryC4 [str "sn-oid"] [(str "sn-oid", [str "a"])] = .ok () :=
  (c4_may_pass_iff dbC4 entryC4 [str "sn-oid"] [(str "sn-oid", [str "a"])]).mpr
    (by decide)


/-! ## Claim C8 — DN render/parse round trip -/

theorem foldl_sep_join {α : Type} (g : Str → α → Str) (f : α → Str) (sep : Char)
    (hg : ∀ a x, g a x = a ++ (f x ++ [sep])) :
    ∀ (l : List α) (acc : Str),
      l.foldl g acc = acc ++ (l.map (fun x => f x ++ [sep])).flatten := by
  intro l
  induction l with
  | nil => intro acc; simp
  | cons x t ih =>
    intro acc
    rw [List.foldl_cons, hg, ih]
    simp

theorem flatten_sep_dropLast {α : Type} (f : α → Str) (sep : Char) :
    ∀ l : List α,
      ((l.map (fun x => f x ++ [sep])).flatten).dropLast = joinChar sep (l.map f) := by
  intro l
  induction l with
  | nil => rfl
  | cons x t ih =>
    cases t with
    | nil => simp [joinChar]
    | cons y ys =>
      have hne : (((y :: ys).map (fun x => f x ++ [sep])).flatten) ≠ [] := by
        simp
      rw [List.map_cons, List.flatten_cons, List.dropLast_append_of_ne_nil _ hne, ih]
      simp [joinChar]

theorem rdn_render_eq (r : Rdn) :
    r.render = joinChar '+' (r.pairs.map (fun p => p.1 ++ '=' :: p.2)) := by
  unfold Rdn.render
  rw [foldl_sep_join _ (fun p : Oid × Str => p.1 ++ '=' :: p.2) '+'
      (fun a x => by simp) r.pairs []]
  rw [List.nil_append]
  exact flatten_sep_dropLast _ '+' r.pairs

theorem dn_render_eq (d : DN) :
    d.render = joinChar ',' (d.rdns.map Rdn.render) := by
  unfold DN.render
  rw [foldl_sep_join _ Rdn.render ','
      (fun a x => by simp) d.rdns []]
  rw [List.nil_append]
  exact flatten_sep_dropLast Rdn.render ',' d.rdns

theorem mem_joinChar {sep c : Char} :
    ∀ {parts : List Str}, c ∈ joinChar sep parts →
      c = sep ∨ ∃ p ∈ parts, c ∈ p := by
  intro parts
  induction parts with
  | nil => intro h; exact absurd h (List.not_mem_nil c)
  | cons p rest ih =>
    cases rest with
    | nil => intro h; exact Or.inr ⟨p, by simp, h⟩
    | cons q qs =>
      intro h
      rcases List.mem_append.mp (h : c ∈ p ++ sep :: joinChar sep (q :: qs)) with h1 | h2
      · exact Or.inr ⟨p, by simp, h1⟩
      · rcases List.mem_cons.mp h2 with h3 | h4
        · exact Or.inl h3
        · rcases ih h4 with h5 | ⟨x, hx, hcx⟩
          · exact Or.inl h5
          · exact Or.inr ⟨x, List.mem_cons_of_mem p hx, hcx⟩

theorem collectExcept_map_ok {α β γ ε : Type} (g : α → β) (f : β → Except ε γ)
    (h2 : α → γ) (l : List α) (h : ∀ x ∈ l, f (g x) = .ok (h2 x)) :
    collectExcept f (l.map g) = .ok (l.map h2) := by
  induction l with
  | nil => rfl
  | cons x t ih =>
    rw [List.map_cons, collectExcept, h x (by simp),
      ih (fun y hy => h y (List.mem_cons_of_mem x hy))]
    rfl

theorem create_normalised_rdn_render (db : InMemSchemaDb) (r : Rdn)
    (hne : r.pairs ≠ [])
    (hp : ∀ p ∈ r.pairs,
      (∃ a, db.find_attribute_by_name p.1 = some a ∧ a.numericoid = p.1) ∧
      '+' ∉ p.1 ∧ '=' ∉ p.1 ∧ '+' ∉ p.2) :
    create_normalised_rdn db r.render = .ok r := by
  unfold create_normalised_rdn
  rw [rdn_render_eq]
  rw [splitChar_joinChar '+' _ (by simpa using hne) ?hmem]
  case hmem =>
    intro part hpart
    rcases List.mem_map.mp hpart with ⟨p, hpmem, rfl⟩
    obtain ⟨-, h1, -, h3⟩ := hp p hpmem
    intro habs
    rcases List.mem_append.mp habs with ha | hb
    · exact h1 ha
    · rcases List.mem_cons.mp hb with hc | hd
      · exact absurd hc (by decide)
      · exact h3 hd
  rw [collectExcept_map_ok _ _ (fun p => p) r.pairs ?hok]
  · rw [List.map_id']
  case hok =>
    intro p hpmem
    obtain ⟨⟨a, hfind, hnum⟩, -, h2, -⟩ := hp p hpmem
    rw [splitOnce_append '=' p.1 p.2 h2]
    dsimp only
    rw [hfind]
    dsimp only
    rw [hnum]

/-- Claim C8 (amended): parsing the rendered text of a DN via
`create_normalised_dn` returns the same DN, provided every RDN is nonempty,
every RDN OID is registered in the schema as a NAME of the attribute whose
numericoid it is (the parser looks names up, and rendering emits
numericoids), and no OID or value contains the separators the renderer
emits (`,` `+`, and `=` inside OIDs). -/
theorem c8_roundtrip_amended (db : InMemSchemaDb) (d : DN)
    (hdn : d.rdns ≠ [])
    (hr : ∀ r ∈ d.rdns, r.pairs ≠ [])
    (hp : ∀ r ∈ d.rdns, ∀ p ∈ r.pairs,
      (∃ a, db.find_attribute_by_name p.1 = some a ∧ a.numericoid = p.1) ∧
      ',' ∉ p.1 ∧ '+' ∉ p.1 ∧ '=' ∉ p.1 ∧ ',' ∉ p.2 ∧ '+' ∉ p.2) :
    create_normalised_dn db d.render = .ok d := by
  unfold create_normalised_dn
  rw [dn_render_eq]
  rw [splitChar_joinChar ',' _ (by simpa using hdn) ?hmem]
  case hmem =>
    intro part hpart
    rcases List.mem_map.mp hpart with ⟨r, hrmem, rfl⟩
    intro habs
    rw [rdn_render_eq] at habs
    rcases mem_joinChar habs with hsep | ⟨piece, hpiece, hcin⟩
    · exact absurd hsep (by decide)
    · rcases List.mem_map.mp hpiece with ⟨p, hpmem, rfl⟩
      obtain ⟨-, hc1, -, -, hc2, -⟩ := hp r hrmem p hpmem
      rcases List.mem_append.mp hcin with ha | hb
      · exact hc1 ha
      · rcases List.mem_cons.mp hb with hc | hd
        · exact absurd hc (by decide)
        · exact hc2 hd
  rw [collectExcept_map_ok Rdn.render (create_normalised_rdn db) (fun r => r)
    d.rdns ?hok]
  · rw [List.map_id']
  case hok =>
    intro r hrmem
    refine create_normalised_rdn_render db r (hr r hrmem) ?_
    intro p hpmem
    obtain ⟨hres, -, h2, h3, -, h4⟩ := hp r hrmem p hpmem
    exact ⟨hres, h2, h3, h4⟩

/-- Attribute whose numericoid is also registered among its names, so the
name lookup of the parser can resolve a rendered numericoid. -/
def cnAttrSelf : Attribute :=
  { numericoid := str "cn-oid", names := [str "cn-oid", str "cn"] }

/-- Schema for the C8 witness. -/
def dbC8 : InMemSchemaDb := { attributes := [cnAttrSelf] }

/-- A one-RDN DN whose OID is the schema numericoid `cn-oid`. -/
def dnC8 : DN := ⟨[⟨[(str "cn-oid", str "Test")]⟩]⟩

/-- Counterexample to C8 as stated: `dnC8`'s only RDN OID `cn-oid` IS an
attribute numericoid of the schema `dbC4`, yet parsing its rendered text
fails — `create_normalised_rdn` resolves the token by attribute NAME and
`cn-oid` is not among the names of `cn`, so the round trip does not return
the DN. -/
theorem c8_counterexample :
    create_normalised_dn dbC4 dnC8.render ≠ .ok dnC8 := by decide

/-- Witness for C8 (amended) on a schema that lists the numericoid among
the attribute names. -/
theorem c8_roundtrip_amended_witness :
    create_normalised_dn dbC8 dnC8.render = .ok dnC8 :=
  c8_roundtrip_amended dbC8 dnC8 (by decide)
    (by intro r hr; fin_cases hr; decide)
    (by
      intro r hr p hpmem
      fin_cases hr
      fin_cases hpmem
      exact ⟨⟨cnAttrSelf, by decide, by decide⟩, by decide, by decide, by decide,
        by decide, by decide⟩)


/-! ## Entry service (`src/service/entry.rs`) -/

/-- Embeds `service::entry::FindDnResult`. -/
inductive FindDnResult
  | found (e : Entry)
  | notFound (dn : DN)
deriving DecidableEq

/-- `FindDnResult::is_found`. -/
def FindDnResult.is_found : FindDnResult → Bool
  | .found _ => true
  | .notFound _ => false

/-- What the child loop of `find_dn_recursive` produces: `earlyFound`
models the `return Ok(res.unwrap())` taken from INSIDE the loop as soon as
a recursion yields `Found`; `completed` models falling off the end of the
loop, carrying `res` — `none` when there were no children, otherwise the
LAST child's (necessarily not-found) result. -/
inductive LoopOutcome
  | earlyFound (r : FindDnResult)
  | completed (res : Option FindDnResult)
deriving DecidableEq

/-- The `for child_id in curr_entry.get_children()` loop of
`find_dn_recursive`, with the recursive call abstracted as `f`: a missing
child errors out, a `Found` result early-returns (`earlyFound`), otherwise
`res` holds the last child's result; the inner `none` propagates a panic
from the recursion. -/
def childLoop (f : Entry → Option (Except LdapError FindDnResult))
    (repo : State) (curr_entry : Entry) :
    List ID → Option (Except LdapError LoopOutcome)
  | [] => some (.ok (.completed none))
  | child_id :: rest =>
    match get_by_id repo child_id with
    | none =>
      some (.error (.invalidEntry curr_entry.get_id_str
        (str "Entry has supposed child " ++ natStr child_id
          ++ str " but could not find")))
    | some child =>
      match f child with
      | none => none
      | some (.error e) => some (.error e)
      | some (.ok r) =>
        if r.is_found then some (.ok (.earlyFound r))
        else
          match rest with
          | [] => some (.ok (.completed (some r)))
          | _ :: _ => childLoop f repo curr_entry rest

/-- Core of `EntryServiceImpl::find_dn_recursive`, taking the RDN slice
REVERSED (the source inspects `rdns[len-1]` and recurses on
`rdns[..len-1]`; on the reversed list these are the head and the tail, so
the recursion is structural).  `none` models the panics of the source: the
`rdns.last().unwrap()` on an empty slice, and the (unreachable)
`panic!("find dn result somehow found after search")` that fires when a
`Found` survives to the post-loop `let ... else` — a `Found` produced
inside the loop instead early-returns `Ok` via `earlyFound`. -/
def find_rev (repo : State) : List Rdn → Entry → Option (Except LdapError FindDnResult)
  | [], _ => none
  | [r], curr_entry =>
    some (.ok (if curr_entry.matches_rdn r then .found curr_entry
      else .notFound ⟨[]⟩))
  | curr_rdn :: next₁ :: next₂, curr_entry =>
    if !curr_entry.matches_rdn curr_rdn then some (.ok (.notFound ⟨[]⟩))
    else
      match childLoop (find_rev repo (next₁ :: next₂)) repo curr_entry
          curr_entry.children with
      | none => none
      | some (.error e) => some (.error e)
      | some (.ok (.earlyFound r)) => some (.ok r)
      | some (.ok (.completed res)) =>
        match res.getD (.notFound ⟨[]⟩) with
        | .found _ => none
        | .notFound dn => some (.ok (.notFound (dn.append curr_rdn)))

/-- Embeds `EntryServiceImpl::find_dn_recursive` (slice orientation as in
the source; see `find_rev`). -/
def find_dn_recursive (repo : State) (curr_entry : Entry) (rdns : List Rdn) :
    Option (Except LdapError FindDnResult) :=
  find_rev repo rdns.reverse curr_entry

/-- Embeds `EntryService::find_by_dn`: resolve starting from the root entry
(which `get_root_entry` may lazily create, so the repository state is
threaded). -/
def find_by_dn (repo0 : State) (dn : DN) :
    Option (Except LdapError FindDnResult) × State :=
  let rootAndRepo := get_root_entry repo0
  (find_dn_recursive rootAndRepo.2 rootAndRepo.1 dn.as_slice, rootAndRepo.2)

/-- The grandchild entry of the source's `test_find_by_dn` tree. -/
def grandchildE : Entry := { _id := some 2, attributes := [(str "cn-oid", [str "Grandchild"])] }

/-- Its parent (`ou-oid=parent`), holding the grandchild as child. -/
def parentE : Entry :=
  { _id := some 1, children := [2], attributes := [(str "ou-oid", [str "parent"])] }

/-- The root (`dc-oid=com`), holding the parent as child. -/
def rootE : Entry :=
  { _id := some 0, children := [1], attributes := [(str "dc-oid", [str "com"])] }

/-- The three-level repository of the source's `test_find_by_dn`. -/
def treeState : State := [(0, rootE), (1, parentE), (2, grandchildE)]

/-- Sanity check mirroring the source's `test_find_by_dn` unit test: an
existing three-RDN DN resolves to `Found(grandchild)` through two levels of
the child loop (the loop's `Found` early-returns `Ok`, it does not panic). -/
theorem find_by_dn_grandchild_found :
    (find_by_dn treeState
      ⟨[⟨[(str "cn-oid", str "Grandchild")]⟩,
        ⟨[(str "ou-oid", str "parent")]⟩,
        ⟨[(str "dc-oid", str "com")]⟩]⟩).1 =
      some (.ok (.found grandchildE)) := by decide

/-! ## Add-entry command (`src/commands.rs`) and transaction -/

/-- Embeds `AddEntryCommand` (after UTF-8 decoding). -/
structure AddEntryCommand where
  dn : Str
  attributes : List (Str × List Str)

/-- Embeds `EntryService::add_entry` for `EntryServiceImpl`: normalise the
DN, reject if it already resolves, resolve the parent DN, normalise object
classes and attributes, build the entry (RDN attributes first, then command
attributes, parent link), validate, save the entry, then link and save the
parent.  `none` models a panic (in particular the empty-slice panic inside
`find_by_dn` of the parent of a single-RDN DN, and the
`parent.get_id().unwrap()`/`entry.get_id().unwrap()` unwraps); `fresh`
feeds `ID::new_random_id` inside `save`. -/
def add_entry (db : InMemSchemaDb) (fresh : ID) (s : State)
    (command : AddEntryCommand) : Option (Except LdapError (Entry × State)) :=
  match create_normalised_dn db command.dn with
  | .error e => some (.error e)
  | .ok dn =>
    match find_by_dn s dn with
    | (none, _) => none
    | (some (.error e), _) => some (.error e)
    | (some (.ok res), s1) =>
      if res.is_found then some (.error (.entryAlreadyExists command.dn))
      else
        match find_by_dn s1 dn.parent_dn with
        | (none, _) => none
        | (some (.error e), _) => some (.error e)
        | (some (.ok (.notFound not_found_dn)), _) =>
          some (.error (.entryDoesNotExists not_found_dn.render))
        | (some (.ok (.found parent)), s2) =>
          match get_normalised_obj_classes db command.attributes with
          | .error e => some (.error e)
          | .ok entry_object_classes =>
            match get_normalised_attributes db command.attributes with
            | .error e => some (.error e)
            | .ok entry_attributes =>
              let b0 := entry_object_classes.foldl Entry.add_object_class {}
              match dn.first with
              | none => none
              | some rdn1 =>
                let b1 := rdn1.pairs.foldl
                  (fun b p => b.add_attr_val p.1 p.2) b0
                let b2 := entry_attributes.foldl
                  (fun b p => b.add_attr_vals p.1 p.2) b1
                match parent.get_id with
                | none => none
                | some parent_id =>
                  let entry := b2.set_parent parent_id
                  match validate_entry db entry with
                  | .error e => some (.error e)
                  | .ok _ =>
                    let saved := save fresh s2 entry
                    match saved.1.get_id with
                    | none => none
                    | some entry_id =>
                      let saved2 := save fresh saved.2 (parent.add_child entry_id)
                      some (.ok (saved.1, saved2.2))

/-! ## Claim C1 — add to root / resolution of the empty parent DN -/

/-- The seed root entry: id `root_identifier()`, attribute `dc-oid=dev`. -/
def rootEntryC1 : Entry :=
  { _id := some 0, attributes := [(str "dc-oid", [str "dev"])] }

/-- Repository holding only the seed root. -/
def rootStateC1 : State := [(0, rootEntryC1)]

/-- An add command whose DN is a single RDN (`cn=New`), so its parent DN is
empty; the DN does not resolve to an existing entry. -/
def cmdC1 : AddEntryCommand :=
  { dn := str "cn=New",
    attributes := [(str "objectClass", [str "person"]), (str "cn", [str "New"])] }

/-- Claim C1 (code bug): `find_dn_recursive` PANICS on the empty RDN slice
(`rdns.last().unwrap()` on an empty `Vec`) instead of returning
`Found(root)`, so an add-entry command with a single-RDN DN panics when it
resolves the empty parent DN — it can never succeed, for any repository
state and schema.  The second conjunct evaluates the full transaction on
the seed tree from the specification. -/
theorem c1_add_to_root_panics :
    (∀ (repo : State) (e : Entry), find_dn_recursive repo e [] = none) ∧
    add_entry dbC4 5 rootStateC1 cmdC1 = none :=
  ⟨fun _ _ => rfl, by decide⟩


/-! ## Claim C9 — atomicity of the persist-and-link phase -/

/-- The persist-and-link tail of `add_entry` (spec steps 8–9, source lines
155–158): `save(entry)`, `parent.add_child(entry.id)`, `save(parent)`.
Each `save` acquires and RELEASES the repository mutex on its own, so the
states before, between and after the two saves are all observable by
readers; the model returns that list.  `none` models the
`entry.get_id().unwrap()` panic. -/
def persist_link (fresh : ID) (s0 : State) (entry parent : Entry) :
    Option (Entry × List State) :=
  let saved := save fresh s0 entry
  match saved.1.get_id with
  | none => none
  | some entry_id =>
    let saved2 := save fresh saved.2 (parent.add_child entry_id)
    some (saved.1, [s0, saved.2, saved2.2])

/-- The entry being added in the C9 scenario (no id yet, parent root). -/
def entryNewC9 : Entry :=
  { parent := 0, object_classes := [str "person-oid"],
    attributes := [(str "cn-oid", [str "New"])] }

/-- Counterexample to C9 as stated: among the reader-observable states of
the persist-and-link phase there is one (the state between the two saves)
in which the new entry is present under its id 5 while the root parent's
children do not contain 5 — the phase is NOT atomic for readers. -/
theorem c9_counterexample :
    ∃ s ∈ ((persist_link 5 rootStateC1 entryNewC9 rootEntryC1).map
        (fun r => r.2)).getD [],
      (mapGet s 5).isSome ∧ (mapGet s 0).isSome ∧
        5 ∉ ((mapGet s 0).getD {}).children := by decide

/-- Claim C9 (amended): each repository call is individually atomic, but
the entry-save and the parent-save are SEPARATE critical sections.  In the
intermediate state (the second observable state of the phase) the new entry
is retrievable under its freshly stamped id while every other key — the
parent in particular — still holds its pre-phase value, so a reader
between the saves observes the entry without its parent linkage. -/
theorem c9_persist_link_amended (fresh : ID) (s0 : State)
    (entry parent : Entry) (pid : ID)
    (hid : entry._id = none) (hfresh : mapGet s0 fresh = none)
    (hpid : pid ≠ fresh) :
    mapGet (save fresh s0 entry).2 fresh = some { entry with _id := some fresh } ∧
    mapGet (save fresh s0 entry).2 pid = mapGet s0 pid ∧
    (persist_link fresh s0 entry parent).map (fun r => r.2) =
      some [s0, (save fresh s0 entry).2,
        (save fresh (save fresh s0 entry).2 (parent.add_child fresh)).2] := by
  have hsave : save fresh s0 entry =
      ({ entry with _id := some fresh },
        mapInsert s0 fresh { entry with _id := some fresh }) := by
    simp only [save, hid, Option.getD_none, hfresh]
  refine ⟨?_, ?_, ?_⟩
  · rw [hsave]
    exact mapGet_mapInsert_self s0 fresh _
  · rw [hsave]
    exact mapGet_mapInsert_ne s0 fresh pid _ hpid
  · simp only [persist_link, hsave, Entry.get_id, Option.map_some]
    rfl

/-- Witness for C9 (amended) at the concrete scenario of the
counterexample. -/
theorem c9_persist_link_amended_witness :
    entryNewC9._id = none ∧ mapGet rootStateC1 5 = none ∧ (0 : ID) ≠ 5 ∧
    mapGet (save 5 rootStateC1 entryNewC9).2 0 = mapGet rootStateC1 0 :=
  ⟨by decide, by decide, by decide,
    (c9_persist_link_amended 5 rootStateC1 entryNewC9 rootEntryC1 0
      (by decide) (by decide) (by decide)).2.1⟩

/-! ## Protocol controller and connection loop (`src/infrastructure.rs`) -/

/-- LDAP result codes used by the embedded slice of the protocol. -/
inductive ResultCode
  | success
  | protocolError
  | invalidDnSyntax
  | entryAlreadyExists
  | noSuchObject
  | undefinedAttributeType
  | unwillingToPerform
deriving DecidableEq

/-- Embeds `rasn_ldap::LdapResult` (code, matched DN, diagnostic). -/
structure LdapResult where
  result_code : ResultCode
  matched_dn : Str
  diagnostic_message : Str
deriving DecidableEq

/-- The protocol operations the loop dispatches on; request payloads are
opaque tokens, response operations carry their `LdapResult`. -/
inductive ProtocolOp
  | bindRequest (payload : Nat)
  | addRequest (payload : Nat)
  | searchRequest (payload : Nat)
  | unbindRequest
  | bindResponse (r : LdapResult)
  | addResponse (r : LdapResult)
  | searchResDone (r : LdapResult)
  | extendedReq (payload : Nat)
deriving DecidableEq

/-- Embeds `rasn_ldap::LdapMessage`: a message id and a protocol op. -/
structure LdapMessage where
  message_id : Nat
  protocol_op : ProtocolOp
deriving DecidableEq

/-- Does `LdapTcpConnection::run` have a dedicated match arm for this
operation (everything else falls into the wildcard arm)? -/
def handled_op : ProtocolOp → Bool
  | .addRequest _ => true
  | .bindRequest _ => true
  | .searchRequest _ => true
  | .unbindRequest => true
  | _ => false

/-- The `LdapResult::new(UnwillingToPerform, "", "Request type not
implemented")` sent by the wildcard arm. -/
def unwilling_result : LdapResult :=
  { result_code := .unwillingToPerform, matched_dn := [],
    diagnostic_message := str "Request type not implemented" }

/-- What `send_msg` is given: either a full `LdapMessage` (which carries a
`message_id`) or a BARE `LdapResult` (which does not). -/
inductive SentPdu
  | wrapped (m : LdapMessage)
  | bare (r : LdapResult)
deriving DecidableEq

/-- The controller trait (`LdapController`), abstracting over the handlers;
`Except Unit` models `anyhow::Result`. -/
structure LdapController where
  handle_add : Nat → Except Unit ProtocolOp
  handle_bind : Nat → Except Unit ProtocolOp
  handle_search : Nat → Except Unit ProtocolOp

/-- What one iteration of the `run` loop does after reading `msg`. -/
inductive StepAction
  | next
  | closed
  | failed
deriving DecidableEq

/-- One iteration of `LdapTcpConnection::run` after a message has been
decoded: dispatch on `protocol_op`; handler results are wrapped into
`LdapMessage::new(msg.message_id, res)` and sent; a handler error exits the
loop via `?`; `UnbindRequest` breaks; the wildcard arm sends the BARE
`unwilling_result` (not wrapped in an `LdapMessage`) and continues. -/
def run_step (ctrl : LdapController) (msg : LdapMessage) :
    List SentPdu × StepAction :=
  match msg.protocol_op with
  | .addRequest req =>
    match ctrl.handle_add req with
    | .error _ => ([], .failed)
    | .ok op => ([.wrapped ⟨msg.message_id, op⟩], .next)
  | .bindRequest req =>
    match ctrl.handle_bind req with
    | .error _ => ([], .failed)
    | .ok op => ([.wrapped ⟨msg.message_id, op⟩], .next)
  | .searchRequest req =>
    match ctrl.handle_search req with
    | .error _ => ([], .failed)
    | .ok op => ([.wrapped ⟨msg.message_id, op⟩], .next)
  | .unbindRequest => ([], .closed)
  | _ => ([.bare unwilling_result], .next)

/-- A trivial controller whose handlers always answer. -/
def ctrl0 : LdapController :=
  { handle_add := fun _ => .ok (.addResponse unwilling_result),
    handle_bind := fun _ => .ok (.bindResponse unwilling_result),
    handle_search := fun _ => .ok (.searchResDone unwilling_result) }

/-- Does a sent PDU carry the given message id?  A bare `LdapResult` has no
message-id field at all. -/
def pdu_carries_id (p : SentPdu) (mid : Nat) : Bool :=
  match p with
  | .wrapped m => m.message_id == mid
  | .bare _ => false

/-! ## Claim C5 — responses carry the request's `message_id` -/

/-- Counterexample to C5 as stated: the response to an unsupported
operation (message id 7) is the bare `unwilling_result`, sent WITHOUT an
`LdapMessage` wrapper, so it does not carry the triggering message id. -/
theorem c5_counterexample :
    ¬ (∀ p ∈ (run_step ctrl0 ⟨7, .extendedReq 0⟩).1,
        pdu_carries_id p 7 = true) := by decide

/-- Claim C5 (amended): every PDU the loop sends is either an
`LdapMessage` wrapping a handler response under the triggering request's
`message_id` (Bind/Add/Search), or — for an operation without a dedicated
match arm — the bare `unwilling_result`, which carries no message id. -/
theorem c5_responses_amended (ctrl : LdapController) (msg : LdapMessage) :
    ∀ p ∈ (run_step ctrl msg).1,
      (∃ op, p = .wrapped ⟨msg.message_id, op⟩) ∨
      (p = .bare unwilling_result ∧ handled_op msg.protocol_op = false) := by
  intro p hp
  cases hop : msg.protocol_op <;> simp only [run_step, hop] at hp
  case addRequest req =>
    cases hh : ctrl.handle_add req <;> simp only [hh] at hp
    · exact absurd hp (List.not_mem_nil p)
    · rw [List.mem_singleton.mp hp]
      exact Or.inl ⟨_, rfl⟩
  case bindRequest req =>
    cases hh : ctrl.handle_bind req <;> simp only [hh] at hp
    · exact absurd hp (List.not_mem_nil p)
    · rw [List.mem_singleton.mp hp]
      exact Or.inl ⟨_, rfl⟩
  case searchRequest req =>
    cases hh : ctrl.handle_search req <;> simp only [hh] at hp
    · exact absurd hp (List.not_mem_nil p)
    · rw [List.mem_singleton.mp hp]
      exact Or.inl ⟨_, rfl⟩
  case unbindRequest => exact absurd hp (List.not_mem_nil p)
  all_goals
    rw [List.mem_singleton.mp hp]
    exact Or.inr ⟨rfl, rfl⟩

/-- Witness for C5 (amended): the wildcard response to an extended request
is the bare unwilling result. -/
theorem c5_responses_amended_witness :
    SentPdu.bare unwilling_result ∈ (run_step ctrl0 ⟨7, .extendedReq 0⟩).1 ∧
    ((∃ op, SentPdu.bare unwilling_result = .wrapped ⟨7, op⟩) ∨
      (SentPdu.bare unwilling_result = .bare unwilling_result ∧
        handled_op (ProtocolOp.extendedReq 0) = false)) :=
  ⟨by decide,
    c5_responses_amended ctrl0 ⟨7, .extendedReq 0⟩ (.bare unwilling_result)
      (by decide)⟩


/-! ## Claim C6 — decoder failure on a well-framed buffer -/

/-- How `run` can stop reading a connection: any error returned by
`read_msg` — a short read / I/O failure during framing, or the external
decoder rejecting the framed buffer. -/
inductive ConnErr
  | ioError
  | decodeError
deriving DecidableEq

/-- Embeds `LdapTcpConnection::read_msg`: frame the next PDU, then hand the
buffer to the external `rasn` decoder (a parameter of the model); both
failure modes are `Err`s of `read_msg`. -/
def read_msg (decode : List Nat → Option LdapMessage) (s : Stream) :
    Except ConnErr (LdapMessage × Stream) :=
  match read_frame s with
  | none => .error .ioError
  | some (buf, rest) =>
    match decode buf with
    | none => .error .decodeError
    | some m => .ok (m, rest)

/-- The observable outcome of one iteration of `LdapTcpConnection::run`. -/
inductive ConnStep
  | terminated (e : ConnErr)
  | continuing (sent : List SentPdu) (rest : Stream)
  | closedConn (sent : List SentPdu)
  | ctrlFailed
deriving DecidableEq

/-- One iteration of `LdapTcpConnection::run`: `let msg = self.read_msg()?`
— ANY `read_msg` error exits the loop and terminates the connection —
then dispatch and reply via `run_step`. -/
def conn_step (decode : List Nat → Option LdapMessage) (ctrl : LdapController)
    (s : Stream) : ConnStep :=
  match read_msg decode s with
  | .error e => .terminated e
  | .ok (m, rest) =>
    match run_step ctrl m with
    | (sent, .next) => .continuing sent rest
    | (sent, .closed) => .closedConn sent
    | (_, .failed) => .ctrlFailed

/-- A decoder that rejects every buffer. -/
def decodeNone : List Nat → Option LdapMessage := fun _ => none

/-- Counterexample to C6 as stated: `[48, 0]` is a complete, correctly
length-framed PDU (tag `0x30`, short-form length `0`), the decoder rejects
it, and the connection TERMINATES (the `?` in `run` propagates the decode
error) instead of continuing with the next request. -/
theorem c6_counterexample :
    read_frame [48, 0] = some ([48, 0], []) ∧
    decodeNone [48, 0] = none ∧
    conn_step decodeNone ctrl0 [48, 0] = .terminated .decodeError := by decide

/-- Claim C6 (amended): when the framer has read a complete,
correctly length-framed buffer and the external decoder fails on it, the
connection LOOP TERMINATES with the decode error — exactly like I/O and
framing errors, per the propagation policy that read/decode errors at the
framer are fatal to the connection; the loop does not continue. -/
theorem c6_decode_error_terminates (decode : List Nat → Option LdapMessage)
    (ctrl : LdapController) (s : Stream) (buf : List Nat) (rest : Stream)
    (h1 : read_frame s = some (buf, rest)) (h2 : decode buf = none) :
    conn_step decode ctrl s = .terminated .decodeError := by
  unfold conn_step read_msg
  rw [h1]
  dsimp only
  rw [h2]

/-- Witness for C6 (amended) at the concrete frame of the counterexample. -/
theorem c6_decode_error_terminates_witness :
    read_frame [48, 0] = some ([48, 0], []) ∧ decodeNone [48, 0] = none ∧
    conn_step decodeNone ctrl0 [48, 0] = .terminated .decodeError :=
  ⟨by decide, rfl,
    c6_decode_error_terminates decodeNone ctrl0 [48, 0] [48, 0] []
      (by decide) rfl⟩

end Ldap
